import Mathlib

/-!
# Verification of the gofetch HTTP client library

Shallow embedding of the gofetch repository (Go) in Lean 4, with theorems
settling the claims about its specification.

The repository's configuration, URL building, request execution and client
derivation code (package `infrastructure`, `domain/models`, `domain/errors`)
is embedded directly from the source.  The resilience layer (retry
orchestrator, circuit breaker, backoff calculator, outcome classifier) is
declared in the repository's documentation (`docs/PROJECT_SUMMARY.md` lists
`infrastructure/retry.go` and `infrastructure/circuit_breaker.go`), but those
files are not present in the source tree; the definitions for that layer are
modelled from the specification, and are marked as such.

Durations are modelled as `Int` (Go's `time.Duration` is a signed integer
count of nanoseconds); strings as `List Char`.
-/

namespace GoFetch

/-! ## Backoff calculator (spec-modelled)

The spec (§4.2) gives the contract
`delay(attemptNumber, strategy, baseDelay, jitterEnabled) -> duration`.
Randomness of the full-jitter draw is made explicit: the draw is a function
of a nonnegative random seed, reduced into the admissible interval
`[0, computedDelay]`. -/

/-- Modelled from the spec: the closed enumeration of backoff strategies
(§4.2, §9); the implementing file `domain/models/retry.go` is absent from
the source tree. -/
inductive BackoffStrategy where
  | fixed
  | linear
  | exponential
deriving DecidableEq, Repr

/-- Modelled from the spec: the deterministic part of the backoff
computation (§4.2): Fixed ↦ baseDelay, Linear ↦ baseDelay × n,
Exponential ↦ baseDelay × 2^(n−1); `baseDelay ≤ 0` is treated as "no
delay" rather than an error. The implementing file
`infrastructure/retry.go` is absent from the source tree. -/
def computedDelay (strategy : BackoffStrategy) (attemptNumber : Nat) (baseDelay : Int) : Int :=
  if baseDelay ≤ 0 then 0
  else
    match strategy with
    | .fixed => baseDelay
    | .linear => baseDelay * attemptNumber
    | .exponential => baseDelay * 2 ^ (attemptNumber - 1)

/-- Modelled from the spec: the backoff calculator with optional full
jitter (§4.2): when jitter is enabled the final delay is a random value
drawn uniformly from `[0, computedDelay]`; the randomness is the `rand`
seed, reduced by `emod` into that interval. The implementing file
`infrastructure/retry.go` is absent from the source tree. -/
def delay (strategy : BackoffStrategy) (attemptNumber : Nat) (baseDelay : Int)
    (jitterEnabled : Bool) (rand : Nat) : Int :=
  let d := computedDelay strategy attemptNumber baseDelay
  if jitterEnabled then (rand : Int) % (d + 1) else d

/-! ## Outcome classifier (spec-modelled) -/

/-- Modelled from the spec: the tag of an attempt outcome (§3,
`AttemptOutcome`); the implementing file is absent from the source tree. -/
inductive OutcomeTag where
  | success
  | retryableFailure
  | fatalFailure
deriving DecidableEq, Repr

/-- Modelled from the spec: the input of one attempt as seen by the
classifier (§4.1): either a network-level error, a caller-initiated
cancellation, or a received response with a status code. -/
inductive AttemptInput where
  | netError (e : List Char)
  | canceled (e : List Char)
  | response (statusCode : Int)
deriving DecidableEq, Repr

/-- Status codes associated with transient server conditions (spec §4.1,
§7: 429, 502, 503, 504). -/
def transientStatus (s : Int) : Bool :=
  s = 429 || s = 502 || s = 503 || s = 504

/-- Modelled from the spec: the outcome classifier (§4.1):
network error ↦ RetryableFailure; caller cancellation ↦ FatalFailure;
received response ↦ validator-accepted is Success, validator-rejected
transient status is RetryableFailure, any other rejected status is
FatalFailure. The implementing file is absent from the source tree. -/
def classify (statusValidator : Int → Bool) : AttemptInput → OutcomeTag
  | .netError _ => .retryableFailure
  | .canceled _ => .fatalFailure
  | .response s =>
    if statusValidator s then .success
    else if transientStatus s then .retryableFailure
    else .fatalFailure

/-! ## Circuit breaker (spec-modelled)

Time is an explicit `Int` parameter (nanoseconds): the Open → HalfOpen
transition is evaluated lazily on `allow`, per §4.3 and §9. -/

/-- Modelled from the spec: the circuit-breaker state enumeration (§4.3);
the implementing file `infrastructure/circuit_breaker.go` is absent from
the source tree. -/
inductive CBState where
  | closed
  | open
  | halfOpen
deriving DecidableEq, Repr

/-- Modelled from the spec: the per-endpoint circuit-breaker state record
(§3, `CircuitBreakerState`). -/
structure CircuitBreakerState where
  state : CBState
  consecutiveFailures : Nat
  lastFailureTime : Int
deriving DecidableEq, Repr

/-- Modelled from the spec: circuit-breaker tuning (§6):
failure threshold and open timeout. -/
structure CBConfig where
  failureThreshold : Nat
  openTimeout : Int
deriving DecidableEq, Repr

/-- The fresh per-endpoint state, created lazily on first use (§3):
normal operation, no failures recorded. -/
def CircuitBreakerState.fresh : CircuitBreakerState :=
  { state := .closed, consecutiveFailures := 0, lastFailureTime := 0 }

/-- Modelled from the spec: `allow(endpointKey)` evaluated on one
endpoint's state at time `now` (§4.3): Closed passes through; Open passes
through — becoming HalfOpen — exactly when the open timeout has elapsed
since the last failure; HalfOpen admits no further caller beyond the
single probe already admitted by the Open → HalfOpen transition (§9 open
question, resolved by the spec's stated assumption). Returns the decision
and the updated state. -/
def allow (cfg : CBConfig) (now : Int) (s : CircuitBreakerState) :
    Bool × CircuitBreakerState :=
  match s.state with
  | .closed => (true, s)
  | .open =>
    if cfg.openTimeout ≤ now - s.lastFailureTime then
      (true, { s with state := .halfOpen })
    else
      (false, s)
  | .halfOpen => (false, s)

/-- Modelled from the spec: `recordFailure(endpointKey)` on one endpoint's
state at time `now` (§4.3): HalfOpen returns to Open with the failure time
refreshed; otherwise the consecutive-failure counter increments and the
state opens when it reaches the failure threshold. -/
def recordFailure (cfg : CBConfig) (now : Int) (s : CircuitBreakerState) :
    CircuitBreakerState :=
  match s.state with
  | .halfOpen =>
    { state := .open, consecutiveFailures := s.consecutiveFailures + 1,
      lastFailureTime := now }
  | st =>
    let cf := s.consecutiveFailures + 1
    { state := if cfg.failureThreshold ≤ cf then .open else st,
      consecutiveFailures := cf, lastFailureTime := now }

/-- Modelled from the spec: `recordSuccess(endpointKey)` on one endpoint's
state (§3, §4.3): any success resets the consecutive-failure counter to 0,
and a HalfOpen probe success closes the breaker. -/
def recordSuccess (s : CircuitBreakerState) : CircuitBreakerState :=
  { state := .closed, consecutiveFailures := 0,
    lastFailureTime := s.lastFailureTime }

/-- Iterate `recordFailure` over a list of failure times, left to right:
`failN cfg ts s` is the state after recording one failure at each time in
`ts`, with no intervening success. -/
def failN (cfg : CBConfig) (ts : List Int) (s : CircuitBreakerState) :
    CircuitBreakerState :=
  ts.foldl (fun st t => recordFailure cfg t st) s

/-- The per-endpoint registry (§9): endpoint key ↦ breaker state, entries
created lazily. -/
def Registry := List Char → Option CircuitBreakerState

/-- Look up an endpoint's state, creating the fresh state lazily (§3). -/
def Registry.get (r : Registry) (key : List Char) : CircuitBreakerState :=
  (r key).getD CircuitBreakerState.fresh

/-- Store an endpoint's state back into the registry. -/
def Registry.set (r : Registry) (key : List Char) (s : CircuitBreakerState) :
    Registry :=
  fun k => if k = key then some s else r k

/-! ## Retry orchestrator (spec-modelled)

The attempt executor is a caller-supplied external collaborator (§6);
it is abstracted as a function from the attempt number (1-based) to the
already-classified outcome of that round trip.  The time at which attempt
`n` starts is likewise an explicit function of `n`. -/

/-- Modelled from the spec: the outcome of a single attempt as consumed by
the retry loop (§3, `AttemptOutcome`): a tag with the successful result or
the underlying error. -/
inductive AttemptOutcome (ρ : Type) where
  | success (result : ρ)
  | retryableFailure (err : List Char)
  | fatalFailure (err : List Char)
deriving DecidableEq, Repr

/-- Modelled from the spec: the error taxonomy surfaced by `execute`
(§7): the caller can distinguish circuit-open from retries-exhausted from
a fatal failure, and the two failure kinds carry the underlying error
verbatim. -/
inductive ExecError where
  | circuitOpen
  | fatal (err : List Char)
  | retriesExhausted (err : List Char)
deriving DecidableEq, Repr

/-- The result of `execute`: outcome, final registry, and the number of
times the attempt executor was invoked. -/
structure ExecResult (ρ : Type) where
  outcome : Except ExecError ρ
  registry : Registry
  calls : Nat

/-- The circuit-breaker gate of one loop iteration (§4.4 step 2): when
the breaker is enabled, consult `allow` and store the lazily updated
state back; when disabled, every attempt passes and no state is
tracked. Returns the decision and the registry to continue with. -/
def gateStep (cfg : CBConfig) (cbEnabled : Bool) (now : Int)
    (key : List Char) (reg : Registry) : Bool × Registry :=
  if cbEnabled then
    ((allow cfg now (reg.get key)).1, reg.set key (allow cfg now (reg.get key)).2)
  else (true, reg)

/-- Record an attempt's outcome into the registry (§4.4 steps 4–6): only
when the breaker is enabled. -/
def recordStep (cbEnabled : Bool) (key : List Char) (reg : Registry)
    (f : CircuitBreakerState → CircuitBreakerState) : Registry :=
  if cbEnabled then reg.set key (f (reg.get key)) else reg

/-- Modelled from the spec: the retry loop body (§4.4, steps 2–6),
recursing on the remaining retry budget. `attempt` is the 1-based attempt
number about to run; `remaining` is the number of retries still allowed
after it. The implementing file `infrastructure/retry.go` is absent from
the source tree. -/
def executeLoop {ρ : Type} (cfg : CBConfig) (cbEnabled : Bool)
    (executor : Nat → AttemptOutcome ρ) (times : Nat → Int)
    (key : List Char) : Nat → Nat → Registry → Nat → ExecResult ρ
  | remaining, attempt, reg, calls =>
    let now := times attempt
    let gate := gateStep cfg cbEnabled now key reg
    if gate.1 = false then
      { outcome := .error .circuitOpen, registry := gate.2, calls := calls }
    else
      match executor attempt with
      | .success r =>
        { outcome := .ok r,
          registry := recordStep cbEnabled key gate.2 recordSuccess,
          calls := calls + 1 }
      | .fatalFailure e =>
        { outcome := .error (.fatal e),
          registry := recordStep cbEnabled key gate.2 (recordFailure cfg now),
          calls := calls + 1 }
      | .retryableFailure e =>
        let reg' := recordStep cbEnabled key gate.2 (recordFailure cfg now)
        match remaining with
        | 0 => { outcome := .error (.retriesExhausted e), registry := reg', calls := calls + 1 }
        | remaining' + 1 =>
          executeLoop cfg cbEnabled executor times key remaining' (attempt + 1) reg' (calls + 1)

/-- Modelled from the spec: retry configuration (§3, `RetryOptions`); the
implementing file `domain/models/retry.go` is absent from the source
tree. -/
structure RetryOptions where
  maxRetries : Nat
  backoff : BackoffStrategy
  baseDelay : Int
  jitter : Bool
  circuitBreakerEnabled : Bool

/-- Modelled from the spec: the retry orchestrator contract
`execute(attemptExecutor, retryOptions, endpointKey)` (§4.4), starting at
attempt 1 with a budget of `MaxRetries` further attempts. -/
def execute {ρ : Type} (cfg : CBConfig) (opts : RetryOptions)
    (executor : Nat → AttemptOutcome ρ) (times : Nat → Int)
    (key : List Char) (reg : Registry) : ExecResult ρ :=
  executeLoop cfg opts.circuitBreakerEnabled executor times key
    opts.maxRetries 1 reg 0

/-! ## Strings

Go strings are modelled as `List Char`.  The helpers below embed the
`strings` and `net/url` standard-library functions that `buildURL` calls:
`strings.Contains`, `strings.Replace(s, old, new, -1)`,
`strings.TrimRight(s, "/")`, `strings.TrimLeft(s, "/")`, and
`url.Values.Encode` (sort keys, percent-escape, join with `&`). -/

abbrev Str := List Char

/-- `strStartsWith s pat`: `pat` occurs at the start of `s`. -/
def strStartsWith : Str → Str → Bool
  | _, [] => true
  | [], _ :: _ => false
  | c :: s, p :: ps => c = p && strStartsWith s ps

/-- Embeds `strings.Contains s pat`: `pat` occurs somewhere in `s`. -/
def strContains : Str → Str → Bool
  | [], pat => strStartsWith [] pat
  | c :: rest, pat => strStartsWith (c :: rest) pat || strContains rest pat

/-- Worker for `strReplaceAll`: a positive `skip` count consumes the
remaining characters of a matched occurrence; at `skip = 0`, a match of
`pat` emits `rep` and schedules the rest of the occurrence to be
consumed.  The skip counter keeps the recursion structural in the
string. -/
def replaceAux (pat rep : Str) : Nat → Str → Str
  | _ + 1, [] => []
  | skip + 1, _ :: rest => replaceAux pat rep skip rest
  | 0, [] => []
  | 0, c :: rest =>
    if pat ≠ [] ∧ strStartsWith (c :: rest) pat then
      rep ++ replaceAux pat rep (pat.length - 1) rest
    else
      c :: replaceAux pat rep 0 rest

/-- Embeds `strings.Replace(s, pat, rep, -1)`: replace every
non-overlapping occurrence of `pat` in `s`, left to right.  (`buildURL`
only calls it with `pat = ":" + key`, which is never empty; for an empty
`pat` this embedding returns `s`.) -/
def strReplaceAll (pat rep s : Str) : Str :=
  replaceAux pat rep 0 s

/-- Embeds `strings.TrimRight(s, "/")`: drop every trailing `'/'`. -/
def trimRightSlash (s : Str) : Str :=
  (s.reverse.dropWhile (fun c => c = '/')).reverse

/-- Embeds `strings.TrimLeft(s, "/")`: drop every leading `'/'`. -/
def trimLeftSlash (s : Str) : Str :=
  s.dropWhile (fun c => c = '/')

/-- Bytes that `url.QueryEscape` leaves unescaped: ASCII letters, digits,
and `- _ . ~`. -/
def isUnreserved (c : Char) : Bool :=
  let n := c.toNat
  (65 ≤ n && n ≤ 90) || (97 ≤ n && n ≤ 122) || (48 ≤ n && n ≤ 57) ||
    c = '-' || c = '_' || c = '.' || c = '~'

/-- Uppercase hexadecimal digit for `n < 16`. -/
def hexDigit (n : Nat) : Char :=
  if n < 10 then Char.ofNat (48 + n) else Char.ofNat (55 + n)

/-- The UTF-8 encoding of a character, as byte values (Go strings are
UTF-8 byte sequences and escaping works per byte). -/
def utf8Bytes (c : Char) : List Nat :=
  let n := c.toNat
  if n < 128 then [n]
  else if n < 2048 then [192 + n / 64, 128 + n % 64]
  else if n < 65536 then [224 + n / 4096, 128 + (n / 64) % 64, 128 + n % 64]
  else [240 + n / 262144, 128 + (n / 4096) % 64, 128 + (n / 64) % 64, 128 + n % 64]

/-- Percent-escape a single byte: `%XX` with uppercase hex. -/
def escapeByte (b : Nat) : Str :=
  ['%', hexDigit (b / 16), hexDigit (b % 16)]

/-- Embeds `url.QueryEscape`: unreserved bytes kept, space becomes `+`,
every other byte percent-escaped. -/
def queryEscape (s : Str) : Str :=
  (s.map fun c =>
    if isUnreserved c then [c]
    else if c = ' ' then ['+']
    else ((utf8Bytes c).map escapeByte).flatten).flatten

/-- Lexicographic order on strings by code point (Go compares strings
bytewise; on the parameter keys used here the orders agree). -/
def strLt : Str → Str → Bool
  | [], [] => false
  | [], _ :: _ => true
  | _ :: _, [] => false
  | a :: as, b :: bs => a.toNat < b.toNat || (a = b && strLt as bs)

/-- Insert a key-value pair into a list sorted by key. -/
def insertByKey (p : Str × Str) : List (Str × Str) → List (Str × Str)
  | [] => [p]
  | q :: rest => if strLt q.1 p.1 then q :: insertByKey p rest else p :: q :: rest

/-- Sort key-value pairs by key (`url.Values.Encode` sorts its keys;
the keys come from a Go map and are distinct). -/
def sortByKey (l : List (Str × Str)) : List (Str × Str) :=
  l.foldr insertByKey []

/-- Join strings with `'&'` separators. -/
def joinAmp : List Str → Str
  | [] => []
  | [x] => x
  | x :: y :: rest => x ++ '&' :: joinAmp (y :: rest)

/-- Embeds `url.Values.Encode`: keys sorted, each pair rendered
`escape(k)=escape(v)`, pairs joined with `&`. -/
def encodeQuery (l : List (Str × Str)) : Str :=
  joinAmp ((sortByKey l).map fun p => queryEscape p.1 ++ '=' :: queryEscape p.2)

/-! ## URL building (infrastructure/client.go, `buildURL`)

Parameters are modelled as an association list of already-formatted
strings (Go formats each `interface{}` value with `fmt.Sprintf("%v")`);
the list order stands for Go's map iteration order. -/

/-- Embeds the parameter loop of `buildURL`: for each parameter, if the
placeholder `":" + key` occurs in the (progressively substituted) path,
replace every occurrence with the value; otherwise the pair becomes a
query parameter. Returns the processed path and the query pairs. -/
def substParams : Str → List (Str × Str) → Str × List (Str × Str)
  | path, [] => (path, [])
  | path, (k, v) :: rest =>
    if strContains path (':' :: k) then
      substParams (strReplaceAll (':' :: k) v path) rest
    else
      let (p, q) := substParams path rest
      (p, (k, v) :: q)

/-- Embeds `Client.buildURL` (infrastructure/client.go): substitute path
parameters, join base URL and path with a single `/` when both are
non-empty, then append the encoded query string when any query parameters
remain.  The Go function's error result is always `nil`, embedded as
`Except.ok`. -/
def buildURL (baseURL path : Str) (params : List (Str × Str)) : Except Str Str :=
  let pq := substParams path params
  let processedPath := pq.1
  let queryParams := pq.2
  let fullURL :=
    if baseURL ≠ [] ∧ processedPath ≠ [] then
      trimRightSlash baseURL ++ '/' :: trimLeftSlash processedPath
    else if processedPath ≠ [] then processedPath
    else baseURL
  let fullURL :=
    if queryParams ≠ [] then fullURL ++ '?' :: encodeQuery queryParams else fullURL
  .ok fullURL

/-! ## Configuration (domain/models/config.go) -/

/-- Set a key in a string-to-string map, modelled as an association list:
overwrite an existing entry, otherwise append. -/
def headersSet (h : List (Str × Str)) (k v : Str) : List (Str × Str) :=
  match h with
  | [] => [(k, v)]
  | (k', v') :: rest =>
    if k' = k then (k, v) :: rest else (k', v') :: headersSet rest k v

/-- Look up a key in a string-to-string map. -/
def headersGet (h : List (Str × Str)) (k : Str) : Option Str :=
  match h with
  | [] => none
  | (k', v') :: rest => if k' = k then some v' else headersGet rest k

/-- Embeds `models.Config`: base URL, timeout (nanoseconds), default
headers, and the status validator.  The validator is optional because
`Config.Merge` checks it against `nil`; every config built by `NewConfig`
carries one. -/
structure Config where
  BaseURL : Str
  Timeout : Int
  Headers : List (Str × Str)
  StatusValidator : Option (Int → Bool)

/-- Embeds `models.DefaultStatusValidator`: the status code is in the 2xx
range. -/
def DefaultStatusValidator (statusCode : Int) : Bool :=
  decide (200 ≤ statusCode ∧ statusCode < 300)

/-- Embeds `models.NewConfig`: empty headers, 30-second timeout, default
status validator. -/
def NewConfig : Config :=
  { BaseURL := [], Timeout := 30 * 1000000000, Headers := [],
    StatusValidator := some DefaultStatusValidator }

/-- Embeds `Config.Merge`: the other config takes precedence field by
field — non-empty base URL, non-zero timeout, every header entry, and a
non-nil status validator overwrite the receiver's copies. -/
def Config.Merge (c other : Config) : Config :=
  { BaseURL := if other.BaseURL ≠ [] then other.BaseURL else c.BaseURL,
    Timeout := if other.Timeout ≠ 0 then other.Timeout else c.Timeout,
    Headers := other.Headers.foldl (fun h kv => headersSet h kv.1 kv.2) c.Headers,
    StatusValidator :=
      match other.StatusValidator with
      | some v => some v
      | none => c.StatusValidator }

/-- Apply a config's status validator (configs reachable from `NewConfig`
always carry one; the `none` branch is unreachable for them). -/
def Config.validate (c : Config) (s : Int) : Bool :=
  match c.StatusValidator with
  | some v => v s
  | none => false

/-! ## Request execution (infrastructure/client.go, `executeRequest`)

The external collaborators of `executeRequest` are explicit parameters:
`transport` abstracts `httpClient.Do` followed by reading the response
body (`io.ReadAll`); `marshal` abstracts `json.Marshal` of the request
body; `decode` abstracts `json.Unmarshal` of the response body into the
target.  An HTTP response is modelled with its body already read; a
failed network round trip or body read is the transport's error. -/

/-- The outgoing request as assembled by `executeRequest`. -/
structure MRequest where
  method : Str
  url : Str
  headers : List (Str × Str)
  body : Option Str

/-- A received HTTP response with its body bytes. -/
structure HttpResponse where
  statusCode : Int
  headers : List (Str × Str)
  body : Str

/-- Embeds the error results of `executeRequest`:
`errors.HTTPError` (status, body, headers, message) from status
validation, or an error wrapped by `fmt.Errorf("<context>: %w", err)` at
one of the other failure sites. -/
inductive MError where
  | httpError (statusCode : Int) (body : Str) (headers : List (Str × Str)) (message : Str)
  | wrapped (context : Str) (msg : Str)
deriving DecidableEq, Repr

/-- Embeds `models.Response`: status code, headers, decoded data and raw
body bytes.  `Data` is the decoded value when a decode happened, `none`
otherwise (in Go it is the caller's target pointer). -/
structure MResponse (α : Type) where
  StatusCode : Int
  Headers : List (Str × Str)
  Data : Option α
  RawBody : Str
deriving DecidableEq, Repr

/-- Embeds the client state relevant to request execution:
configuration, interceptor chains and the optional data transformer. -/
structure MClient (α β : Type) where
  config : Config
  requestInterceptors : List (MRequest → Except Str MRequest)
  responseInterceptors : List (HttpResponse → Except Str HttpResponse)
  dataTransformer : Option (Str → Except Str Str)

/-- Embeds `infrastructure.NewClient` restricted to the state above:
default config, no interceptors, no transformer. -/
def NewMClient (α β : Type) : MClient α β :=
  { config := NewConfig, requestInterceptors := [], responseInterceptors := [],
    dataTransformer := none }

/-- Apply an interceptor chain left to right, stopping at the first
error (the loops over `c.requestInterceptors` / `c.responseInterceptors`). -/
def foldInterceptors {γ : Type} : List (γ → Except Str γ) → γ → Except Str γ
  | [], x => .ok x
  | f :: rest, x =>
    match f x with
    | .error e => .error e
    | .ok y => foldInterceptors rest y

/-- `"Content-Type"` as a model string. -/
def contentTypeKey : Str := "Content-Type".toList

/-- `"application/json"` as a model string. -/
def applicationJson : Str := "application/json".toList

/-- Embeds `Client.executeRequest` (infrastructure/client.go): merge
configs, build the URL (from the client's own base URL), marshal the
body, assemble the request with default headers and a JSON content type,
run the request interceptors, perform the round trip, run the response
interceptors, validate the status (failure yields
`errors.NewHTTPError(resp, respBody, "")`), apply the data transformer,
and decode a non-empty body into a non-nil target.
(`http.NewRequestWithContext` fails only on a malformed method or URL
and is modelled as total; the upload/download progress wrappers only
observe the byte stream and are not modelled.) -/
def executeRequest {α β : Type} (transport : MRequest → Except Str HttpResponse)
    (marshal : β → Except Str Str) (decode : Str → Except Str α)
    (c : MClient α β) (method : Str) (path : Str) (params : List (Str × Str))
    (body : Option β) (targetPresent : Bool) (requestConfig : Option Config) :
    Except MError (MResponse α) :=
  let config :=
    match requestConfig with
    | some rc => c.config.Merge rc
    | none => c.config
  match buildURL c.config.BaseURL path params with
  | .error e => .error (.wrapped "failed to build URL".toList e)
  | .ok fullURL =>
    let bodyRes : Except MError (Option Str) :=
      match body with
      | none => .ok none
      | some b =>
        match marshal b with
        | .error e => .error (.wrapped "failed to marshal request body".toList e)
        | .ok bs => .ok (some bs)
    match bodyRes with
    | .error e => .error e
    | .ok bodyReader =>
      let req : MRequest :=
        { method := method, url := fullURL,
          headers := config.Headers.foldl (fun h kv => headersSet h kv.1 kv.2) [],
          body := bodyReader }
      let req :=
        if bodyReader.isSome ∧ headersGet req.headers contentTypeKey = none then
          { req with headers := headersSet req.headers contentTypeKey applicationJson }
        else req
      match foldInterceptors c.requestInterceptors req with
      | .error e => .error (.wrapped "request interceptor error".toList e)
      | .ok req =>
        match transport req with
        | .error e => .error (.wrapped "request execution error".toList e)
        | .ok resp =>
          match foldInterceptors c.responseInterceptors resp with
          | .error e => .error (.wrapped "response interceptor error".toList e)
          | .ok resp =>
            let respBody := resp.body
            if ¬ config.validate resp.statusCode then
              .error (.httpError resp.statusCode respBody resp.headers [])
            else
              let transformed : Except MError Str :=
                match c.dataTransformer with
                | none => .ok respBody
                | some t =>
                  match t respBody with
                  | .error e => .error (.wrapped "data transformer error".toList e)
                  | .ok b => .ok b
              match transformed with
              | .error e => .error e
              | .ok respBody =>
                if targetPresent ∧ respBody ≠ [] then
                  match decode respBody with
                  | .error e => .error (.wrapped "failed to unmarshal response".toList e)
                  | .ok v =>
                    .ok { StatusCode := resp.statusCode, Headers := resp.headers,
                          Data := some v, RawBody := respBody }
                else
                  .ok { StatusCode := resp.statusCode, Headers := resp.headers,
                        Data := none, RawBody := respBody }

/-- Embeds `Client.Get`: a GET with no request body. -/
def Get {α β : Type} (transport : MRequest → Except Str HttpResponse)
    (marshal : β → Except Str Str) (decode : Str → Except Str α)
    (c : MClient α β) (path : Str) (params : List (Str × Str))
    (targetPresent : Bool) : Except MError (MResponse α) :=
  executeRequest transport marshal decode c "GET".toList path params none targetPresent none

/-- Embeds `Client.Post`: a POST passing its body through. -/
def Post {α β : Type} (transport : MRequest → Except Str HttpResponse)
    (marshal : β → Except Str Str) (decode : Str → Except Str α)
    (c : MClient α β) (path : Str) (params : List (Str × Str))
    (body : Option β) (targetPresent : Bool) : Except MError (MResponse α) :=
  executeRequest transport marshal decode c "POST".toList path params body targetPresent none

/-- Embeds `Client.Put`: a PUT passing its body through. -/
def Put {α β : Type} (transport : MRequest → Except Str HttpResponse)
    (marshal : β → Except Str Str) (decode : Str → Except Str α)
    (c : MClient α β) (path : Str) (params : List (Str × Str))
    (body : Option β) (targetPresent : Bool) : Except MError (MResponse α) :=
  executeRequest transport marshal decode c "PUT".toList path params body targetPresent none

/-- Embeds `Client.Patch`: a PATCH passing its body through. -/
def Patch {α β : Type} (transport : MRequest → Except Str HttpResponse)
    (marshal : β → Except Str Str) (decode : Str → Except Str α)
    (c : MClient α β) (path : Str) (params : List (Str × Str))
    (body : Option β) (targetPresent : Bool) : Except MError (MResponse α) :=
  executeRequest transport marshal decode c "PATCH".toList path params body targetPresent none

/-- Embeds `Client.Delete`: a DELETE with no request body. -/
def Delete {α β : Type} (transport : MRequest → Except Str HttpResponse)
    (marshal : β → Except Str Str) (decode : Str → Except Str α)
    (c : MClient α β) (path : Str) (params : List (Str × Str))
    (targetPresent : Bool) : Except MError (MResponse α) :=
  executeRequest transport marshal decode c "DELETE".toList path params none targetPresent none

/-! ## Client derivation (infrastructure/client.go, `NewInstance`)

`NewInstance`'s guarantee is about aliasing: the derived client gets a
`Clone` of the parent's `*models.Config` (a fresh `Config` struct holding
a fresh headers map with copied entries) and fresh interceptor slices
filled by `copy`.  To state this, the two Go reference levels — the
`*Config` pointer in each `Client` and the headers map inside each
`Config` — are modelled as addresses into an explicit store.  Interceptor
and callback function values are modelled as opaque handles (`Nat`); the
interceptor slices live by value in the client because `NewInstance`
allocates fresh backing arrays for them. -/

/-- A `models.Config` object as stored on the heap: the headers map is a
reference to a separately stored map object. -/
structure ConfigObj where
  BaseURL : Str
  Timeout : Int
  HeadersRef : Nat
  StatusValidator : Option (Int → Bool)

/-- An `infrastructure.Client` as a heap client: a reference to its
config object, plus its interceptor slices and callbacks. -/
structure HClient where
  configRef : Nat
  requestInterceptors : List Nat
  responseInterceptors : List Nat
  dataTransformer : Option Nat
  uploadProgress : Option Nat
  downloadProgress : Option Nat

/-- The store: config objects and headers-map objects by address, with
an allocation bound (`next`): every live address is below `next`. -/
structure Store where
  configs : Nat → ConfigObj
  headerMaps : Nat → List (Str × Str)
  next : Nat

/-- Write a config object at an address. -/
def Store.writeConfig (σ : Store) (a : Nat) (co : ConfigObj) : Store :=
  { σ with configs := fun x => if x = a then co else σ.configs x }

/-- Write a headers map at an address. -/
def Store.writeHeaders (σ : Store) (a : Nat) (h : List (Str × Str)) : Store :=
  { σ with headerMaps := fun x => if x = a then h else σ.headerMaps x }

/-- The address of a client's headers map: the `HeadersRef` of its config
object. -/
def headersRefOf (σ : Store) (c : HClient) : Nat :=
  (σ.configs c.configRef).HeadersRef

/-- Embeds `Client.SetHeader`: writes one entry into the headers map of
the client's config, through the config pointer. -/
def hSetHeader (σ : Store) (c : HClient) (k v : Str) : Store × HClient :=
  let a := headersRefOf σ c
  (σ.writeHeaders a (headersSet (σ.headerMaps a) k v), c)

/-- Embeds `Client.SetBaseURL`: updates the config object in place. -/
def hSetBaseURL (σ : Store) (c : HClient) (u : Str) : Store × HClient :=
  (σ.writeConfig c.configRef { σ.configs c.configRef with BaseURL := u }, c)

/-- Embeds `Client.SetTimeout`: updates the config object in place (the
`http.Client` timeout it also sets is not part of the configuration
observed here). -/
def hSetTimeout (σ : Store) (c : HClient) (t : Int) : Store × HClient :=
  (σ.writeConfig c.configRef { σ.configs c.configRef with Timeout := t }, c)

/-- Embeds `Client.SetStatusValidator`: updates the config object in
place. -/
def hSetStatusValidator (σ : Store) (c : HClient) (f : Int → Bool) :
    Store × HClient :=
  (σ.writeConfig c.configRef { σ.configs c.configRef with StatusValidator := some f }, c)

/-- Embeds `Client.AddRequestInterceptor`: appends to the client's own
slice (whose backing array is never shared between clients, because
`NewInstance` allocates it with `make` and fills it with `copy`). -/
def hAddRequestInterceptor (σ : Store) (c : HClient) (i : Nat) :
    Store × HClient :=
  (σ, { c with requestInterceptors := c.requestInterceptors ++ [i] })

/-- Embeds `Client.AddResponseInterceptor`: appends to the client's own
slice. -/
def hAddResponseInterceptor (σ : Store) (c : HClient) (i : Nat) :
    Store × HClient :=
  (σ, { c with responseInterceptors := c.responseInterceptors ++ [i] })

/-- Embeds `Client.NewInstance` together with `Config.Clone`: allocate a
fresh headers map holding a copy of the parent's entries, allocate a
fresh config object copying the parent's fields but pointing at the new
map, and build a client referencing the new config, with copies of the
interceptor slices and the same transformer and progress callbacks. -/
def hNewInstance (σ : Store) (c : HClient) : Store × HClient :=
  let co := σ.configs c.configRef
  let hAddr := σ.next
  let cAddr := σ.next + 1
  let σ₁ := σ.writeHeaders hAddr (σ.headerMaps co.HeadersRef)
  let σ₂ := σ₁.writeConfig cAddr { co with HeadersRef := hAddr }
  let σ₃ := { σ₂ with next := σ.next + 2 }
  (σ₃,
   { configRef := cAddr,
     requestInterceptors := c.requestInterceptors,
     responseInterceptors := c.responseInterceptors,
     dataTransformer := c.dataTransformer,
     uploadProgress := c.uploadProgress,
     downloadProgress := c.downloadProgress })

/-- The caller-visible configuration of a client: everything the claim
compares between parent and derived client. -/
structure Obs where
  BaseURL : Str
  Timeout : Int
  Headers : List (Str × Str)
  StatusValidator : Option (Int → Bool)
  reqInterceptors : List Nat
  respInterceptors : List Nat
  dataTransformer : Option Nat
  uploadProgress : Option Nat
  downloadProgress : Option Nat

/-- Observe a client's configuration through the store. -/
def observe (σ : Store) (c : HClient) : Obs :=
  { BaseURL := (σ.configs c.configRef).BaseURL,
    Timeout := (σ.configs c.configRef).Timeout,
    Headers := σ.headerMaps (σ.configs c.configRef).HeadersRef,
    StatusValidator := (σ.configs c.configRef).StatusValidator,
    reqInterceptors := c.requestInterceptors,
    respInterceptors := c.responseInterceptors,
    dataTransformer := c.dataTransformer,
    uploadProgress := c.uploadProgress,
    downloadProgress := c.downloadProgress }

/-- One configuration mutation from the claim's list. -/
inductive Mutation where
  | setHeader (k v : Str)
  | setBaseURL (u : Str)
  | setTimeout (t : Int)
  | setStatusValidator (f : Int → Bool)
  | addRequestInterceptor (i : Nat)
  | addResponseInterceptor (i : Nat)

/-- Apply one mutation to a client. -/
def applyMut (σ : Store) (c : HClient) : Mutation → Store × HClient
  | .setHeader k v => hSetHeader σ c k v
  | .setBaseURL u => hSetBaseURL σ c u
  | .setTimeout t => hSetTimeout σ c t
  | .setStatusValidator f => hSetStatusValidator σ c f
  | .addRequestInterceptor i => hAddRequestInterceptor σ c i
  | .addResponseInterceptor i => hAddResponseInterceptor σ c i

/-- Apply a sequence of mutations to a client, threading the store. -/
def applyMuts (σ : Store) (c : HClient) : List Mutation → Store × HClient
  | [] => (σ, c)
  | m :: rest =>
    let r := applyMut σ c m
    applyMuts r.1 r.2 rest

/-- A client's references are live: both its config address and its
headers-map address are below the allocation bound. -/
def liveIn (σ : Store) (c : HClient) : Prop :=
  c.configRef < σ.next ∧ headersRefOf σ c < σ.next

/-! # Theorems -/

/-! ## Backoff calculator -/

/-- The deterministic backoff computation is never negative. -/
theorem computedDelay_nonneg (s : BackoffStrategy) (n : Nat) (d : Int) :
    0 ≤ computedDelay s n d := by
  unfold computedDelay
  split
  · exact le_refl 0
  · rename_i h
    have hd : 0 < d := lt_of_not_le h
    cases s with
    | fixed => exact le_of_lt hd
    | linear => exact mul_nonneg (le_of_lt hd) (Int.natCast_nonneg n)
    | exponential => exact mul_nonneg (le_of_lt hd) (pow_nonneg (by norm_num) _)

/-- C5 (counterexample): the claim as stated quantifies over every base
delay, but the calculator treats a non-positive base delay as "no delay"
(spec §4.2), so at base delay −1 the Fixed strategy does not return −1. -/
theorem claim_C5_counterexample :
    ¬ (delay BackoffStrategy.fixed 1 (-1) false 0 = -1) := by decide

/-- C5 (amended): for every attempt number n ≥ 1 and every positive base
delay d, with jitter disabled the backoff calculator returns exactly d
under Fixed, d·n under Linear, and d·2^(n−1) under Exponential. -/
theorem claim_C5_theorem (n : Nat) (d : Int) (rand : Nat)
    (_hn : 1 ≤ n) (hd : 0 < d) :
    delay BackoffStrategy.fixed n d false rand = d ∧
    delay BackoffStrategy.linear n d false rand = d * n ∧
    delay BackoffStrategy.exponential n d false rand = d * 2 ^ (n - 1) := by
  have h : ¬ d ≤ 0 := not_le.mpr hd
  refine ⟨?_, ?_, ?_⟩ <;> simp [delay, computedDelay, h]

/-- C5 witness: the amended statement at n = 3, d = 2. -/
theorem claim_C5_witness :
    delay BackoffStrategy.fixed 3 2 false 0 = 2 ∧
    delay BackoffStrategy.linear 3 2 false 0 = 6 ∧
    delay BackoffStrategy.exponential 3 2 false 0 = 8 := by
  have h := claim_C5_theorem 3 2 0 (by decide) (by decide)
  refine ⟨h.1, h.2.1.trans (by norm_num), h.2.2.trans (by norm_num)⟩

/-- C6: the backoff calculator never returns a negative duration; with
jitter enabled the result is capped by the jitter-free delay; and a
non-positive base delay yields no delay rather than an error. -/
theorem claim_C6_theorem (s : BackoffStrategy) (n : Nat) (d : Int)
    (j : Bool) (rand : Nat) :
    0 ≤ delay s n d j rand ∧
    delay s n d true rand ≤ delay s n d false rand ∧
    (d ≤ 0 → delay s n d j rand = 0) := by
  have hD : 0 ≤ computedDelay s n d := computedDelay_nonneg s n d
  have hne : computedDelay s n d + 1 ≠ 0 := by omega
  have hpos : 0 < computedDelay s n d + 1 := by omega
  refine ⟨?_, ?_, ?_⟩
  · unfold delay
    cases j with
    | false => simpa using hD
    | true => simpa using Int.emod_nonneg (rand : Int) hne
  · unfold delay
    simp only [if_pos rfl, if_neg Bool.false_ne_true]
    exact Int.lt_add_one_iff.mp (Int.emod_lt_of_pos (rand : Int) hpos)
  · intro hd
    have h0 : computedDelay s n d = 0 := by unfold computedDelay; simp [hd]
    unfold delay
    cases j with
    | false => simpa using h0
    | true => simp [h0]

/-- C6 witness: the statement at Fixed, n = 1, d = −5, jitter on,
seed 7. -/
theorem claim_C6_witness :
    0 ≤ delay BackoffStrategy.fixed 1 (-5) true 7 ∧
    delay BackoffStrategy.fixed 1 (-5) true 7 ≤
      delay BackoffStrategy.fixed 1 (-5) false 7 ∧
    delay BackoffStrategy.fixed 1 (-5) true 7 = 0 := by
  have h := claim_C6_theorem BackoffStrategy.fixed 1 (-5) true 7
  exact ⟨h.1, h.2.1, h.2.2 (by decide)⟩

/-! ## Outcome classifier -/

/-- C3: when an HTTP response is received, a validator-accepted status
classifies as Success; a validator-rejected status among 429, 502, 503,
504 classifies as RetryableFailure; any other validator-rejected status
classifies as FatalFailure. -/
theorem claim_C3_theorem (validator : Int → Bool) (s : Int) :
    (validator s = true → classify validator (.response s) = .success) ∧
    (validator s = false → (s = 429 ∨ s = 502 ∨ s = 503 ∨ s = 504) →
      classify validator (.response s) = .retryableFailure) ∧
    (validator s = false → ¬ (s = 429 ∨ s = 502 ∨ s = 503 ∨ s = 504) →
      classify validator (.response s) = .fatalFailure) := by
  refine ⟨?_, ?_, ?_⟩
  · intro hv; simp [classify, hv]
  · intro hv htr
    rcases htr with h | h | h | h <;> subst h <;>
      simp [classify, hv, transientStatus]
  · intro hv htr
    push_neg at htr
    obtain ⟨h1, h2, h3, h4⟩ := htr
    simp [classify, hv, transientStatus, h1, h2, h3, h4]

/-- C3 witness: the default validator at statuses 204, 503 and 404. -/
theorem claim_C3_witness :
    classify DefaultStatusValidator (.response 204) = .success ∧
    classify DefaultStatusValidator (.response 503) = .retryableFailure ∧
    classify DefaultStatusValidator (.response 404) = .fatalFailure :=
  ⟨(claim_C3_theorem DefaultStatusValidator 204).1 (by decide),
   (claim_C3_theorem DefaultStatusValidator 503).2.1 (by decide) (by decide),
   (claim_C3_theorem DefaultStatusValidator 404).2.2 (by decide) (by decide)⟩

/-! ## Circuit breaker -/

/-- Once the breaker is open, further recorded failures keep it open. -/
theorem failN_open (cfg : CBConfig) (ts : List Int) :
    ∀ s : CircuitBreakerState, s.state = .open →
      (failN cfg ts s).state = .open := by
  induction ts with
  | nil => intro s hs; exact hs
  | cons t rest ih =>
    intro s hs
    have hstep : (recordFailure cfg t s).state = .open := by
      unfold recordFailure
      rw [hs]
      simp only
      split <;> rfl
    exact ih _ hstep

/-- From a closed state, recording enough consecutive failures to reach
the failure threshold opens the breaker. -/
theorem failN_reaches_open (cfg : CBConfig) :
    ∀ (ts : List Int) (s : CircuitBreakerState), s.state = .closed →
      cfg.failureThreshold ≤ s.consecutiveFailures + ts.length → ts ≠ [] →
      (failN cfg ts s).state = .open := by
  intro ts
  induction ts with
  | nil => intro s _ _ hne; exact absurd rfl hne
  | cons t rest ih =>
    intro s hs hth _
    have hrf : recordFailure cfg t s =
        { state := if cfg.failureThreshold ≤ s.consecutiveFailures + 1
                   then .open else .closed,
          consecutiveFailures := s.consecutiveFailures + 1,
          lastFailureTime := t } := by
      unfold recordFailure; rw [hs]
    by_cases hopen : cfg.failureThreshold ≤ s.consecutiveFailures + 1
    · have hs' : (recordFailure cfg t s).state = .open := by
        rw [hrf]; simp [hopen]
      exact failN_open cfg rest _ hs'
    · cases rest with
      | nil =>
        exfalso
        simp only [List.length_cons, List.length_nil] at hth
        omega
      | cons t' rest' =>
        have hs' : (recordFailure cfg t s).state = .closed := by
          rw [hrf]; simp [hopen]
        have hcf : (recordFailure cfg t s).consecutiveFailures =
            s.consecutiveFailures + 1 := by rw [hrf]
        have hth' : cfg.failureThreshold ≤
            (recordFailure cfg t s).consecutiveFailures +
              (t' :: rest').length := by
          rw [hcf]
          simp only [List.length_cons] at hth ⊢
          omega
        exact ih _ hs' hth' (by simp)

/-- C2: the per-endpoint breaker state moves only along the defined
edges — Closed opens exactly when the consecutive-failure count reaches
the threshold; Open admits a caller (becoming HalfOpen) exactly when the
open timeout has elapsed since the last failure, and is otherwise left
unchanged; a HalfOpen probe success closes the breaker and resets the
counter; a HalfOpen probe failure reopens it and refreshes the failure
time. After exactly FailureThreshold consecutive recorded failures from
the fresh state, with the timeout not yet elapsed, `allow` returns
false. -/
theorem claim_C2_theorem (cfg : CBConfig) (cf : Nat) (lt now t : Int)
    (ts : List Int)
    (hlen : ts.length = cfg.failureThreshold)
    (hth : 1 ≤ cfg.failureThreshold)
    (htime : t - (failN cfg ts CircuitBreakerState.fresh).lastFailureTime <
      cfg.openTimeout) :
    (recordFailure cfg now ⟨.closed, cf, lt⟩ =
      ⟨if cfg.failureThreshold ≤ cf + 1 then .open else .closed, cf + 1, now⟩) ∧
    ((allow cfg now ⟨.open, cf, lt⟩).1 = true ↔ cfg.openTimeout ≤ now - lt) ∧
    ((allow cfg now ⟨.open, cf, lt⟩).2 =
      if cfg.openTimeout ≤ now - lt then ⟨.halfOpen, cf, lt⟩ else ⟨.open, cf, lt⟩) ∧
    (recordSuccess ⟨.halfOpen, cf, lt⟩ = ⟨.closed, 0, lt⟩) ∧
    (recordFailure cfg now ⟨.halfOpen, cf, lt⟩ = ⟨.open, cf + 1, now⟩) ∧
    (allow cfg t (failN cfg ts CircuitBreakerState.fresh)).1 = false := by
  refine ⟨rfl, ?_, ?_, rfl, rfl, ?_⟩
  · unfold allow
    constructor
    · intro h
      by_contra hc
      simp [hc] at h
    · intro h; simp [h]
  · by_cases h : cfg.openTimeout ≤ now - lt <;> simp [allow, h]
  · have hopen : (failN cfg ts CircuitBreakerState.fresh).state = .open := by
      apply failN_reaches_open cfg ts CircuitBreakerState.fresh rfl
      · simp [CircuitBreakerState.fresh, hlen]
      · intro hnil
        rw [hnil] at hlen
        simp at hlen
        omega
    unfold allow
    rw [hopen]
    simp only
    rw [if_neg (by omega)]

/-- C2 witness: threshold 2, open timeout 100, two failures at times 1
and 2, allow probed at time 50. -/
theorem claim_C2_witness :
    (recordFailure ⟨2, 100⟩ 5 ⟨.closed, 0, 0⟩ =
      ⟨if (2 : Nat) ≤ 0 + 1 then .open else .closed, 0 + 1, 5⟩) ∧
    ((allow ⟨2, 100⟩ 5 ⟨.open, 0, 0⟩).1 = true ↔ (100 : Int) ≤ 5 - 0) ∧
    ((allow ⟨2, 100⟩ 5 ⟨.open, 0, 0⟩).2 =
      if (100 : Int) ≤ 5 - 0 then ⟨.halfOpen, 0, 0⟩ else ⟨.open, 0, 0⟩) ∧
    (recordSuccess ⟨.halfOpen, 0, 0⟩ = ⟨.closed, 0, 0⟩) ∧
    (recordFailure ⟨2, 100⟩ 5 ⟨.halfOpen, 0, 0⟩ = ⟨.open, 0 + 1, 5⟩) ∧
    (allow ⟨2, 100⟩ 50 (failN ⟨2, 100⟩ [1, 2] CircuitBreakerState.fresh)).1 = false :=
  claim_C2_theorem ⟨2, 100⟩ 0 0 5 50 [1, 2] (by decide) (by decide) (by decide)

/-! ## Retry orchestrator -/

/-- The retry loop invokes the executor at most once more than the
remaining retry budget. -/
theorem executeLoop_calls_le {ρ : Type} (cfg : CBConfig) (cb : Bool)
    (executor : Nat → AttemptOutcome ρ) (times : Nat → Int) (key : Str) :
    ∀ (remaining attempt : Nat) (reg : Registry) (calls : Nat),
      (executeLoop cfg cb executor times key remaining attempt reg calls).calls ≤
        calls + remaining + 1 := by
  intro remaining
  induction remaining with
  | zero =>
    intro attempt reg calls
    rw [executeLoop]
    by_cases hgate : (gateStep cfg cb (times attempt) key reg).1 = false
    · rw [if_pos hgate]
      show calls ≤ calls + 0 + 1
      omega
    · rw [if_neg hgate]
      cases hx : executor attempt <;> · show calls + 1 ≤ calls + 0 + 1; omega
  | succ n ih =>
    intro attempt reg calls
    rw [executeLoop]
    by_cases hgate : (gateStep cfg cb (times attempt) key reg).1 = false
    · rw [if_pos hgate]
      show calls ≤ calls + (n + 1) + 1
      omega
    · rw [if_neg hgate]
      cases hx : executor attempt with
      | success r => show calls + 1 ≤ calls + (n + 1) + 1; omega
      | fatalFailure e => show calls + 1 ≤ calls + (n + 1) + 1; omega
      | retryableFailure e =>
        exact le_trans (ih (attempt + 1) _ (calls + 1)) (by omega)

/-- With the circuit breaker disabled and an executor that always
returns a retryable failure, the retry loop spends its whole budget and
surfaces the last attempt's underlying error. -/
theorem executeLoop_all_retryable {ρ : Type} (cfg : CBConfig)
    (executor : Nat → AttemptOutcome ρ) (times : Nat → Int) (key : Str)
    (errs : Nat → Str)
    (hretry : ∀ n, executor n = AttemptOutcome.retryableFailure (errs n)) :
    ∀ (remaining attempt : Nat) (reg : Registry) (calls : Nat),
      (executeLoop cfg false executor times key remaining attempt reg calls).outcome =
          .error (.retriesExhausted (errs (attempt + remaining))) ∧
        (executeLoop cfg false executor times key remaining attempt reg calls).calls =
          calls + remaining + 1 := by
  intro remaining
  induction remaining with
  | zero =>
    intro attempt reg calls
    rw [executeLoop]
    simp [hretry attempt, gateStep, recordStep]
  | succ n ih =>
    intro attempt reg calls
    rw [executeLoop]
    simp only [hretry attempt, gateStep, recordStep, Bool.false_eq_true, if_false,
      Bool.true_eq_false]
    have h := ih (attempt + 1) reg (calls + 1)
    have harith : attempt + 1 + n = attempt + (n + 1) := by omega
    rw [harith] at h
    refine ⟨?_, ?_⟩
    · exact h.1
    · rw [h.2]; omega

/-- C1: for every configuration, `execute` invokes the attempt executor
at most MaxRetries+1 times; with MaxRetries = 0 and the breaker disabled
it performs exactly one attempt; with MaxRetries = 3, the breaker
disabled, and an executor that always returns a retryable failure it
performs exactly 4 attempts and returns the underlying error of the
last (4th) attempt. -/
theorem claim_C1_theorem {ρ : Type} (cfg : CBConfig) (opts : RetryOptions)
    (executor : Nat → AttemptOutcome ρ) (times : Nat → Int) (key : Str)
    (reg : Registry) (errs : Nat → Str) :
    (execute cfg opts executor times key reg).calls ≤ opts.maxRetries + 1 ∧
    (execute cfg { opts with maxRetries := 0, circuitBreakerEnabled := false }
        executor times key reg).calls = 1 ∧
    ((∀ n, executor n = AttemptOutcome.retryableFailure (errs n)) →
      (execute cfg { opts with maxRetries := 3, circuitBreakerEnabled := false }
          executor times key reg).calls = 4 ∧
      (execute cfg { opts with maxRetries := 3, circuitBreakerEnabled := false }
          executor times key reg).outcome =
        .error (.retriesExhausted (errs 4))) := by
  refine ⟨?_, ?_, ?_⟩
  · have h := executeLoop_calls_le cfg opts.circuitBreakerEnabled executor times key
      opts.maxRetries 1 reg 0
    unfold execute
    omega
  · unfold execute
    rw [executeLoop]
    cases hx : executor 1 <;> simp [hx, gateStep, recordStep]
  · intro hretry
    have h := executeLoop_all_retryable cfg executor times key errs hretry 3 1 reg 0
    unfold execute
    exact ⟨h.2, h.1⟩

/-- C1 witness: MaxRetries 3, breaker disabled, always-retryable
executor. -/
theorem claim_C1_witness :
    (execute (ρ := Unit) ⟨1, 100⟩ ⟨3, .fixed, 1, false, false⟩
        (fun _ => AttemptOutcome.retryableFailure ['e']) (fun _ => 0) []
        (fun _ => none)).calls ≤ 3 + 1 ∧
    (execute (ρ := Unit) ⟨1, 100⟩ ⟨0, .fixed, 1, false, false⟩
        (fun _ => AttemptOutcome.retryableFailure ['e']) (fun _ => 0) []
        (fun _ => none)).calls = 1 ∧
    ((execute (ρ := Unit) ⟨1, 100⟩ ⟨3, .fixed, 1, false, false⟩
        (fun _ => AttemptOutcome.retryableFailure ['e']) (fun _ => 0) []
        (fun _ => none)).calls = 4 ∧
      (execute (ρ := Unit) ⟨1, 100⟩ ⟨3, .fixed, 1, false, false⟩
          (fun _ => AttemptOutcome.retryableFailure ['e']) (fun _ => 0) []
          (fun _ => none)).outcome =
        .error (.retriesExhausted ['e'])) := by
  have h := claim_C1_theorem (ρ := Unit) ⟨1, 100⟩ ⟨3, .fixed, 1, false, false⟩
    (fun _ => AttemptOutcome.retryableFailure ['e']) (fun _ => 0) []
    (fun _ => none) (fun _ => ['e'])
  exact ⟨h.1, h.2.1, h.2.2 (fun _ => rfl)⟩

/-- C4: when the breaker is enabled and denies the first attempt,
`execute` returns the circuit-open error immediately, the executor is
never invoked, and the circuit-open error is distinct from the
retries-exhausted and fatal error kinds. -/
theorem claim_C4_theorem {ρ : Type} (cfg : CBConfig) (opts : RetryOptions)
    (executor : Nat → AttemptOutcome ρ) (times : Nat → Int) (key : Str)
    (reg : Registry)
    (hcb : opts.circuitBreakerEnabled = true)
    (hdeny : (allow cfg (times 1) (Registry.get reg key)).1 = false) :
    (execute cfg opts executor times key reg).outcome = .error .circuitOpen ∧
    (execute cfg opts executor times key reg).calls = 0 ∧
    (∀ e, ExecError.circuitOpen ≠ ExecError.retriesExhausted e ∧
      ExecError.circuitOpen ≠ ExecError.fatal e) := by
  refine ⟨?_, ?_, fun e => ⟨fun h => (nomatch h), fun h => (nomatch h)⟩⟩ <;>
    · unfold execute
      rw [executeLoop]
      simp [gateStep, hcb, hdeny]

/-- C4 witness: an open breaker whose timeout has not elapsed denies the
attempt. -/
theorem claim_C4_witness :
    (execute (ρ := Unit) ⟨1, 100⟩ ⟨3, .fixed, 1, false, true⟩
        (fun _ => AttemptOutcome.success ()) (fun _ => 5) []
        (fun _ => some ⟨.open, 1, 0⟩)).outcome = .error .circuitOpen ∧
    (execute (ρ := Unit) ⟨1, 100⟩ ⟨3, .fixed, 1, false, true⟩
        (fun _ => AttemptOutcome.success ()) (fun _ => 5) []
        (fun _ => some ⟨.open, 1, 0⟩)).calls = 0 ∧
    (ExecError.circuitOpen ≠ ExecError.retriesExhausted ['x'] ∧
      ExecError.circuitOpen ≠ ExecError.fatal ['x']) := by
  have h := claim_C4_theorem (ρ := Unit) ⟨1, 100⟩ ⟨3, .fixed, 1, false, true⟩
    (fun _ => AttemptOutcome.success ()) (fun _ => 5) []
    (fun _ => some ⟨.open, 1, 0⟩) rfl (by decide)
  exact ⟨h.1, h.2.1, h.2.2 ['x']⟩

/-! ## URL building -/

/-- The head of a `dropWhile` never satisfies the dropped predicate. -/
theorem dropWhile_head_not (p : Char → Bool) :
    ∀ (l : Str) (c : Char), (l.dropWhile p).head? = some c → p c = false := by
  intro l
  induction l with
  | nil => intro c h; simp [List.dropWhile] at h
  | cons a rest ih =>
    intro c h
    by_cases hp : p a
    · rw [List.dropWhile_cons_of_pos hp] at h
      exact ih c h
    · rw [List.dropWhile_cons_of_neg hp] at h
      simp only [List.head?_cons, Option.some.injEq] at h
      subst h
      simpa using hp

/-- Trimming trailing slashes absorbs an appended slash. -/
theorem trimRightSlash_append_slash (b : Str) :
    trimRightSlash (b ++ ['/']) = trimRightSlash b := by
  unfold trimRightSlash
  rw [List.reverse_append]
  rfl

/-- Trimming leading slashes absorbs a prepended slash. -/
theorem trimLeftSlash_cons_slash (p : Str) :
    trimLeftSlash ('/' :: p) = trimLeftSlash p := by
  unfold trimLeftSlash
  rw [List.dropWhile_cons_of_pos (by decide)]

/-- Parameters none of whose placeholders occur in the path are all
routed to the query string, leaving the path unchanged. -/
theorem substParams_keep (path : Str) :
    ∀ params : List (Str × Str),
      (∀ q ∈ params, strContains path (':' :: q.1) = false) →
      substParams path params = (path, params) := by
  intro params
  induction params with
  | nil => intro _; rfl
  | cons kv rest ih =>
    intro h
    obtain ⟨k, v⟩ := kv
    have hk : strContains path (':' :: k) = false := h (k, v) (by simp)
    have hrest := ih (fun q hq => h q (List.mem_cons_of_mem _ hq))
    simp [substParams, hk, hrest]

/-- C10: `buildURL` never returns an error; a parameter whose `:key`
placeholder occurs in the path is substituted into the path (building
with that parameter equals building with the already-substituted path);
parameters without a placeholder become the URL-encoded query string
appended after `?`; the base URL and path are joined by exactly one `/`
(insensitive to a trailing slash on the base and a leading slash on the
path, with the joined halves free of trailing/leading slashes). -/
theorem claim_C10_theorem (base path v k : Str)
    (params rest : List (Str × Str)) (hb : base ≠ []) (hp : path ≠ []) :
    (∃ s, buildURL base path params = .ok s) ∧
    (strContains path (':' :: k) = true →
      (∀ q ∈ rest,
        strContains (strReplaceAll (':' :: k) v path) (':' :: q.1) = false) →
      buildURL base path ((k, v) :: rest) =
        buildURL base (strReplaceAll (':' :: k) v path) rest) ∧
    ((∀ q ∈ params, strContains path (':' :: q.1) = false) → params ≠ [] →
      ∀ s, buildURL base path [] = Except.ok s →
        buildURL base path params = .ok (s ++ '?' :: encodeQuery params)) ∧
    buildURL (base ++ ['/']) path [] = buildURL base path [] ∧
    buildURL base ('/' :: path) [] = buildURL base path [] ∧
    (∃ b p, buildURL base path [] = .ok (b ++ '/' :: p) ∧
      (∀ c, b.getLast? = some c → c ≠ '/') ∧
      (∀ c, p.head? = some c → c ≠ '/')) := by
  refine ⟨⟨_, rfl⟩, ?_, ?_, ?_, ?_, ?_⟩
  · intro h hrest
    simp [buildURL, substParams, h, substParams_keep _ rest hrest]
  · intro hnone hne s hs
    have hsub := substParams_keep path params hnone
    simp only [buildURL, hsub, substParams] at hs ⊢
    simp only [ne_eq, not_true_eq_false, if_false, Except.ok.injEq] at hs
    simp only [hne, if_pos, ne_eq, not_false_eq_true, if_true]
    rw [hs]
  · simp [buildURL, substParams, hb, hp, trimRightSlash_append_slash]
  · simp [buildURL, substParams, hb, hp, trimLeftSlash_cons_slash]
  · refine ⟨trimRightSlash base, trimLeftSlash path, ?_, ?_, ?_⟩
    · simp [buildURL, substParams, hb, hp]
    · intro c hc
      unfold trimRightSlash at hc
      rw [List.getLast?_reverse] at hc
      have := dropWhile_head_not _ _ _ hc
      simpa using this
    · intro c hc
      have := dropWhile_head_not _ _ _ hc
      simpa using this

/-- C10 witness: base `"a"`, path `":k"`; the parameter `k=7` is
substituted into the path, and the parameter `q=1` becomes the query
string. -/
theorem claim_C10_witness :
    buildURL ['a'] [':', 'k'] [(['k'], ['7']), (['q'], ['1'])] =
      buildURL ['a'] (strReplaceAll (':' :: ['k']) ['7'] [':', 'k'])
        [(['q'], ['1'])] ∧
    buildURL ['a'] [':', 'k'] [(['q'], ['1'])] =
      .ok (['a', '/', ':', 'k'] ++ '?' :: encodeQuery [(['q'], ['1'])]) := by
  have h := claim_C10_theorem ['a'] [':', 'k'] ['7'] ['k'] [(['q'], ['1'])]
    [(['q'], ['1'])] (by decide) (by decide)
  exact ⟨h.2.1 (by decide) (by decide),
    h.2.2.1 (by decide) (by decide) ['a', '/', ':', 'k'] rfl⟩

/-! ## HTTP verbs route through the shared execution path -/

/-- C7: every caller-facing verb returns exactly the result of the shared
`executeRequest` with its method fixed and no per-request config, with a
nil body for Get and Delete; so all five verbs share URL building,
interceptors, validation and decoding. -/
theorem claim_C7_theorem {α β : Type} (transport : MRequest → Except Str HttpResponse)
    (marshal : β → Except Str Str) (decode : Str → Except Str α)
    (c : MClient α β) (path : Str) (params : List (Str × Str))
    (body : Option β) (targetPresent : Bool) :
    Get transport marshal decode c path params targetPresent =
      executeRequest transport marshal decode c "GET".toList path params none
        targetPresent none ∧
    Post transport marshal decode c path params body targetPresent =
      executeRequest transport marshal decode c "POST".toList path params body
        targetPresent none ∧
    Put transport marshal decode c path params body targetPresent =
      executeRequest transport marshal decode c "PUT".toList path params body
        targetPresent none ∧
    Patch transport marshal decode c path params body targetPresent =
      executeRequest transport marshal decode c "PATCH".toList path params body
        targetPresent none ∧
    Delete transport marshal decode c path params targetPresent =
      executeRequest transport marshal decode c "DELETE".toList path params none
        targetPresent none :=
  ⟨rfl, rfl, rfl, rfl, rfl⟩

/-! ## Default-configuration response handling -/

/-- C8 (counterexample): under the default configuration a response can
be received with status 200 — accepted by the default validator — and the
call still returns an error, when unmarshaling the non-empty body into
the caller's target fails (here the decode collaborator stands for
`json.Unmarshal` rejecting the body `"x"`). -/
theorem claim_C8_counterexample :
    executeRequest (α := Unit) (β := Unit)
        (fun _ => .ok { statusCode := 200, headers := [], body := ['x'] })
        (fun _ => .ok []) (fun _ => .error ['b'])
        (NewMClient Unit Unit) ['G'] [] [] none true none =
      .error (.wrapped "failed to unmarshal response".toList ['b']) ∧
    DefaultStatusValidator 200 = true := by
  exact ⟨rfl, by decide⟩

/-- The shape of `executeRequest` for a client in the default
configuration whose transport delivers a fixed response: the outcome is
decided by the default validator and, on acceptance, by the decode of a
non-empty body into a present target. -/
theorem executeRequest_default {α β : Type}
    (transport : MRequest → Except Str HttpResponse)
    (marshal : β → Except Str Str) (decode : Str → Except Str α)
    (c : MClient α β) (method path : Str) (params : List (Str × Str))
    (targetPresent : Bool) (resp : HttpResponse)
    (hv : c.config.StatusValidator = some DefaultStatusValidator)
    (hri : c.requestInterceptors = []) (hsi : c.responseInterceptors = [])
    (htr : c.dataTransformer = none)
    (hres : ∀ q, transport q = .ok resp) :
    executeRequest transport marshal decode c method path params none
        targetPresent none =
      if ¬ DefaultStatusValidator resp.statusCode then
        .error (.httpError resp.statusCode resp.body resp.headers [])
      else if targetPresent ∧ resp.body ≠ [] then
        match decode resp.body with
        | .error e => .error (.wrapped "failed to unmarshal response".toList e)
        | .ok v =>
          .ok { StatusCode := resp.statusCode, Headers := resp.headers,
                Data := some v, RawBody := resp.body }
      else
        .ok { StatusCode := resp.statusCode, Headers := resp.headers,
              Data := none, RawBody := resp.body } := by
  simp only [executeRequest, buildURL, foldInterceptors, Config.validate,
    hri, hsi, htr, hres, hv]

/-- C8 (amended): under the default configuration (default status
validator, no interceptors, no transformer) and a bodyless request whose
transport delivers a response, the call errs exactly when the status is
outside [200, 300) or a non-empty body fails to decode into a present
target; a rejected status yields the HTTPError carrying the status, raw
body and headers (and no Response value); an accepted status yields the
Response, with the decoded data exactly when a decode happened. -/
theorem claim_C8_theorem {α β : Type}
    (transport : MRequest → Except Str HttpResponse)
    (marshal : β → Except Str Str) (decode : Str → Except Str α)
    (c : MClient α β) (method path : Str) (params : List (Str × Str))
    (targetPresent : Bool) (resp : HttpResponse)
    (hv : c.config.StatusValidator = some DefaultStatusValidator)
    (hri : c.requestInterceptors = []) (hsi : c.responseInterceptors = [])
    (htr : c.dataTransformer = none)
    (hres : ∀ q, transport q = .ok resp) :
    ((∃ e, executeRequest transport marshal decode c method path params none
        targetPresent none = .error e) ↔
      (¬ (200 ≤ resp.statusCode ∧ resp.statusCode < 300) ∨
        (targetPresent = true ∧ resp.body ≠ [] ∧
          ∃ m, decode resp.body = .error m))) ∧
    (¬ (200 ≤ resp.statusCode ∧ resp.statusCode < 300) →
      executeRequest transport marshal decode c method path params none
          targetPresent none =
        .error (.httpError resp.statusCode resp.body resp.headers [])) ∧
    ((200 ≤ resp.statusCode ∧ resp.statusCode < 300) →
      ∀ v, decode resp.body = .ok v →
        executeRequest transport marshal decode c method path params none
            targetPresent none =
          .ok { StatusCode := resp.statusCode, Headers := resp.headers,
                Data := if targetPresent = true ∧ resp.body ≠ [] then some v
                        else none,
                RawBody := resp.body }) ∧
    ((200 ≤ resp.statusCode ∧ resp.statusCode < 300) →
      ¬ (targetPresent = true ∧ resp.body ≠ []) →
        executeRequest transport marshal decode c method path params none
            targetPresent none =
          .ok { StatusCode := resp.statusCode, Headers := resp.headers,
                Data := none, RawBody := resp.body }) := by
  have hm := executeRequest_default transport marshal decode c method path
    params targetPresent resp hv hri hsi htr hres
  rw [hm]
  by_cases hs : 200 ≤ resp.statusCode ∧ resp.statusCode < 300
  · have hdv : DefaultStatusValidator resp.statusCode = true := by
      simp only [DefaultStatusValidator, decide_eq_true_eq]
      exact hs
    by_cases htp : targetPresent = true ∧ resp.body ≠ []
    · cases hd : decode resp.body with
      | error m =>
        refine ⟨?_, ?_, ?_, ?_⟩
        · simp [hdv, htp, hd, hs]
        · intro h; exact absurd hs h
        · intro _ v hv'; exact absurd hv' (by simp)
        · intro _ h; exact absurd htp h
      | ok v =>
        refine ⟨?_, ?_, ?_, ?_⟩
        · simp [hdv, htp, hd, hs]
        · intro h; exact absurd hs h
        · intro _ v' hv'
          obtain rfl : v = v' := by injection hv'
          simp [hdv, htp]
        · intro _ h; exact absurd htp h
    · refine ⟨?_, ?_, ?_, ?_⟩
      · simp [hdv, htp, hs]
        intro h1 h2
        exact absurd ⟨h1, h2⟩ htp
      · intro h; exact absurd hs h
      · intro _ v _; simp [hdv, htp]
      · intro _ _; simp [hdv, htp]
  · have hdv : DefaultStatusValidator resp.statusCode = false := by
      simp only [DefaultStatusValidator, decide_eq_false_iff_not]
      exact hs
    refine ⟨?_, ?_, ?_, ?_⟩
    · simp [hdv, hs]
    · intro _; simp [hdv]
    · intro h; exact absurd h hs
    · intro h; exact absurd h hs

/-- C8 witness: a default client receiving a 404 with body
`"User not found"` gets back the HTTPError carrying status, body and
headers (mirroring `TestErrorHandling`). -/
theorem claim_C8_witness :
    executeRequest (α := Unit) (β := Unit)
        (fun _ => .ok { statusCode := 404, headers := [],
                        body := "User not found".toList })
        (fun _ => .ok []) (fun _ => .error [])
        (NewMClient Unit Unit) "GET".toList "/users/999".toList [] none true
        none =
      .error (.httpError 404 "User not found".toList [] []) := by
  have h := claim_C8_theorem
    (fun _ => .ok { statusCode := 404, headers := [],
                    body := "User not found".toList })
    (fun _ => .ok []) (fun _ => .error [])
    (NewMClient Unit Unit) "GET".toList "/users/999".toList [] true
    { statusCode := 404, headers := [], body := "User not found".toList }
    rfl rfl rfl rfl (fun _ => rfl)
  exact h.2.1 (by decide)

/-! ## Client derivation -/

/-- Mutations never change which config object a client references. -/
theorem applyMut_configRef (σ : Store) (c : HClient) (m : Mutation) :
    ((applyMut σ c m).2).configRef = c.configRef := by
  cases m <;> rfl

/-- Mutating a client leaves every other config address untouched. -/
theorem applyMut_configs_frame (σ : Store) (c : HClient) (m : Mutation)
    (a : Nat) (ha : a ≠ c.configRef) :
    (applyMut σ c m).1.configs a = σ.configs a := by
  cases m <;>
    simp [applyMut, hSetHeader, hSetBaseURL, hSetTimeout, hSetStatusValidator,
      hAddRequestInterceptor, hAddResponseInterceptor, Store.writeConfig,
      Store.writeHeaders, ha]

/-- Mutating a client leaves every other headers-map address untouched. -/
theorem applyMut_headerMaps_frame (σ : Store) (c : HClient) (m : Mutation)
    (b : Nat) (hb : b ≠ headersRefOf σ c) :
    (applyMut σ c m).1.headerMaps b = σ.headerMaps b := by
  cases m <;>
    simp [applyMut, hSetHeader, hSetBaseURL, hSetTimeout, hSetStatusValidator,
      hAddRequestInterceptor, hAddResponseInterceptor, Store.writeConfig,
      Store.writeHeaders, hb]

/-- Mutations never change which headers map a client's config points
at. -/
theorem applyMut_headersRefOf (σ : Store) (c : HClient) (m : Mutation) :
    headersRefOf (applyMut σ c m).1 (applyMut σ c m).2 = headersRefOf σ c := by
  cases m <;>
    simp [applyMut, headersRefOf, hSetHeader, hSetBaseURL, hSetTimeout,
      hSetStatusValidator, hAddRequestInterceptor, hAddResponseInterceptor,
      Store.writeConfig, Store.writeHeaders]

/-- One mutation of one client does not change the observed configuration
of a client whose config and headers map live at different addresses. -/
theorem applyMut_observe_other (σ : Store) (x y : HClient) (m : Mutation)
    (hcfg : y.configRef ≠ x.configRef)
    (hhd : headersRefOf σ y ≠ headersRefOf σ x) :
    observe (applyMut σ x m).1 y = observe σ y := by
  have hc := applyMut_configs_frame σ x m y.configRef hcfg
  have hh := applyMut_headerMaps_frame σ x m (headersRefOf σ y) hhd
  unfold observe
  rw [hc]
  unfold headersRefOf at hh
  rw [hh]

/-- A whole sequence of mutations of one client does not change the
observed configuration of a separated client. -/
theorem applyMuts_observe_other (ms : List Mutation) :
    ∀ (σ : Store) (x y : HClient),
      y.configRef ≠ x.configRef →
      headersRefOf σ y ≠ headersRefOf σ x →
      observe (applyMuts σ x ms).1 y = observe σ y := by
  induction ms with
  | nil => intro σ x y _ _; rfl
  | cons m rest ih =>
    intro σ x y hcfg hhd
    have hx1 : ((applyMut σ x m).2).configRef = x.configRef :=
      applyMut_configRef σ x m
    have hcfg' : y.configRef ≠ ((applyMut σ x m).2).configRef := by
      rw [hx1]; exact hcfg
    have hyref : headersRefOf (applyMut σ x m).1 y = headersRefOf σ y := by
      unfold headersRefOf
      rw [applyMut_configs_frame σ x m y.configRef hcfg]
    have hxref : headersRefOf (applyMut σ x m).1 ((applyMut σ x m).2) =
        headersRefOf σ x := applyMut_headersRefOf σ x m
    have hhd' : headersRefOf (applyMut σ x m).1 y ≠
        headersRefOf (applyMut σ x m).1 ((applyMut σ x m).2) := by
      rw [hyref, hxref]; exact hhd
    calc observe (applyMuts σ x (m :: rest)).1 y
        = observe (applyMuts (applyMut σ x m).1 (applyMut σ x m).2 rest).1 y := rfl
      _ = observe (applyMut σ x m).1 y := ih _ _ _ hcfg' hhd'
      _ = observe σ y := applyMut_observe_other σ x y m hcfg hhd

/-- The config heap after `NewInstance`: a fresh config object at
`next + 1`, everything else untouched. -/
theorem hNewInstance_configs (σ : Store) (c : HClient) (a : Nat) :
    ((hNewInstance σ c).1).configs a =
      if a = σ.next + 1 then
        { σ.configs c.configRef with HeadersRef := σ.next }
      else σ.configs a := by
  simp [hNewInstance, Store.writeConfig, Store.writeHeaders]

/-- The headers heap after `NewInstance`: a fresh copy of the parent's
map at `next`, everything else untouched. -/
theorem hNewInstance_headerMaps (σ : Store) (c : HClient) (b : Nat) :
    ((hNewInstance σ c).1).headerMaps b =
      if b = σ.next then σ.headerMaps (headersRefOf σ c)
      else σ.headerMaps b := by
  simp [hNewInstance, Store.writeConfig, Store.writeHeaders, headersRefOf]

/-- C9: `NewInstance` yields a derived client that initially observes
exactly the parent's configuration (base URL, timeout, headers, status
validator, interceptors, transformer, progress callbacks), leaves the
parent's observed configuration unchanged, and thereafter any sequence
of configuration mutations applied to either client leaves the other
client's observed configuration unchanged — because the config object
and headers map are copied into fresh addresses. -/
theorem claim_C9_theorem (σ : Store) (c : HClient)
    (h1 : c.configRef < σ.next) (h2 : headersRefOf σ c < σ.next)
    (msD msP : List Mutation) :
    observe (hNewInstance σ c).1 (hNewInstance σ c).2 = observe σ c ∧
    observe (hNewInstance σ c).1 c = observe σ c ∧
    observe (applyMuts (hNewInstance σ c).1 (hNewInstance σ c).2 msD).1 c =
      observe σ c ∧
    observe (applyMuts (hNewInstance σ c).1 c msP).1 (hNewInstance σ c).2 =
      observe σ c := by
  have hdc : ((hNewInstance σ c).2).configRef = σ.next + 1 := rfl
  have hco : ((hNewInstance σ c).1).configs (σ.next + 1) =
      { σ.configs c.configRef with HeadersRef := σ.next } := by
    rw [hNewInstance_configs]; simp
  have hcc : ((hNewInstance σ c).1).configs c.configRef =
      σ.configs c.configRef := by
    rw [hNewInstance_configs, if_neg (by omega)]
  have hhm1 : ((hNewInstance σ c).1).headerMaps σ.next =
      σ.headerMaps (headersRefOf σ c) := by
    rw [hNewInstance_headerMaps]; simp
  have hhm2 : ((hNewInstance σ c).1).headerMaps (headersRefOf σ c) =
      σ.headerMaps (headersRefOf σ c) := by
    rw [hNewInstance_headerMaps, if_neg (by omega)]
  have hobs_d : observe (hNewInstance σ c).1 (hNewInstance σ c).2 =
      observe σ c := by
    unfold observe
    rw [hdc, hco]
    simp only
    rw [hhm1]
    rfl
  have hobs_c : observe (hNewInstance σ c).1 c = observe σ c := by
    unfold observe
    rw [hcc]
    unfold headersRefOf at hhm2
    rw [hhm2]
  have e1 : headersRefOf (hNewInstance σ c).1 c = headersRefOf σ c := by
    unfold headersRefOf; rw [hcc]
  have e2 : headersRefOf (hNewInstance σ c).1 (hNewInstance σ c).2 = σ.next := by
    unfold headersRefOf; rw [hdc, hco]
  have sep1 : c.configRef ≠ ((hNewInstance σ c).2).configRef := by
    rw [hdc]; omega
  have sep2 : headersRefOf (hNewInstance σ c).1 c ≠
      headersRefOf (hNewInstance σ c).1 (hNewInstance σ c).2 := by
    rw [e1, e2]; omega
  refine ⟨hobs_d, hobs_c, ?_, ?_⟩
  · rw [applyMuts_observe_other msD _ _ _ sep1 sep2]
    exact hobs_c
  · rw [applyMuts_observe_other msP _ _ _ (Ne.symm sep1) (Ne.symm sep2)]
    exact hobs_d

/-- C9 witness: a one-entry store; the derived client is mutated with a
`SetHeader` and the parent with a `SetBaseURL`; each observation of the
other client is unchanged. -/
theorem claim_C9_witness :
    observe (hNewInstance ⟨fun _ => ⟨[], 0, 0, none⟩, fun _ => [], 1⟩
        ⟨0, [], [], none, none, none⟩).1
      (hNewInstance ⟨fun _ => ⟨[], 0, 0, none⟩, fun _ => [], 1⟩
        ⟨0, [], [], none, none, none⟩).2 =
      observe ⟨fun _ => ⟨[], 0, 0, none⟩, fun _ => [], 1⟩
        ⟨0, [], [], none, none, none⟩ ∧
    observe (hNewInstance ⟨fun _ => ⟨[], 0, 0, none⟩, fun _ => [], 1⟩
        ⟨0, [], [], none, none, none⟩).1 ⟨0, [], [], none, none, none⟩ =
      observe ⟨fun _ => ⟨[], 0, 0, none⟩, fun _ => [], 1⟩
        ⟨0, [], [], none, none, none⟩ ∧
    observe (applyMuts
        (hNewInstance ⟨fun _ => ⟨[], 0, 0, none⟩, fun _ => [], 1⟩
          ⟨0, [], [], none, none, none⟩).1
        (hNewInstance ⟨fun _ => ⟨[], 0, 0, none⟩, fun _ => [], 1⟩
          ⟨0, [], [], none, none, none⟩).2
        [Mutation.setHeader ['A'] ['b']]).1 ⟨0, [], [], none, none, none⟩ =
      observe ⟨fun _ => ⟨[], 0, 0, none⟩, fun _ => [], 1⟩
        ⟨0, [], [], none, none, none⟩ ∧
    observe (applyMuts
        (hNewInstance ⟨fun _ => ⟨[], 0, 0, none⟩, fun _ => [], 1⟩
          ⟨0, [], [], none, none, none⟩).1 ⟨0, [], [], none, none, none⟩
        [Mutation.setBaseURL ['u']]).1
      (hNewInstance ⟨fun _ => ⟨[], 0, 0, none⟩, fun _ => [], 1⟩
        ⟨0, [], [], none, none, none⟩).2 =
      observe ⟨fun _ => ⟨[], 0, 0, none⟩, fun _ => [], 1⟩
        ⟨0, [], [], none, none, none⟩ :=
  claim_C9_theorem ⟨fun _ => ⟨[], 0, 0, none⟩, fun _ => [], 1⟩
    ⟨0, [], [], none, none, none⟩ (by decide) (by decide)
    [Mutation.setHeader ['A'] ['b']] [Mutation.setBaseURL ['u']]

end GoFetch
